import Mathlib

/-!
# Verification of the x3f_extract orchestration layer

A shallow embedding of `src/x3f_extract.cpp` (the extraction-planning and
safe-commit orchestration of the x3f tool), together with theorems checking
the natural-language specification against it.

Modelling conventions:
* C strings are `List Char`; `NULL`-able strings are `Option (List Char)`.
* The non-Windows branch of the source is embedded (the build target here),
  so the path-separator set `pathseps` is just `"/"`.
* Outcomes of external collaborator calls (`fopen`, `x3f_new_from_file`,
  `x3f_load_data`, the encoders, `rename`, `stat`) are supplied by an
  `Oracle` record; the per-file processing in `main` becomes a function
  from the resolved configuration and the oracle to a list of observable
  events plus an error count.  A tiny file-system semantics over those
  events settles the visibility claims.
-/

set_option autoImplicit false
set_option linter.unusedVariables false
set_option linter.unnecessarySeqFocus false
set_option linter.unreachableTactic false
set_option linter.unusedTactic false

namespace X3fExtract

/-! ## Enumerations (from `x3f_extract.cpp` and the headers it uses) -/

/-- `output_file_type_t` from `x3f_extract.cpp`. -/
inductive OutputFileType where
  | META
  | JPEG
  | RAW
  | TIFF
  | DNG
  | PPMP3
  | PPMP6
  | HISTOGRAM
  deriving DecidableEq, Repr

/-- `x3f_color_encoding_t` (declared in `x3f_process.h`; the values used by
`x3f_extract.cpp` are `NONE, SRGB, ARGB, PPRGB, UNPROCESSED, QTOP`). -/
inductive ColorEncoding where
  | NONE
  | SRGB
  | ARGB
  | PPRGB
  | UNPROCESSED
  | QTOP
  deriving DecidableEq, Repr

/-- The `extension[]` table of `x3f_extract.cpp`, indexed by the output file
type. -/
def extension : OutputFileType → List Char
  | .META => ".meta".toList
  | .JPEG => ".jpg".toList
  | .RAW => ".raw".toList
  | .TIFF => ".tif".toList
  | .DNG => ".dng".toList
  | .PPMP3 => ".ppm".toList
  | .PPMP6 => ".ppm".toList
  | .HISTOGRAM => ".csv".toList

/-! ## Bounded path construction (`safecpy`, `safecat`, `make_paths`) -/

def MAXPATH : Nat := 1000
def EXTMAX : Nat := 10
def MAXOUTPATH : Nat := MAXPATH + EXTMAX
def MAXTMPPATH : Nat := MAXOUTPATH + EXTMAX

/-- C `strnlen`: the length of the string, capped at `n`. -/
def strnlen (s : List Char) (n : Nat) : Nat := min s.length n

/-- `safecpy` from the source: refuse (returning error count 1 and leaving
the destination untouched) when the source does not fit in `dst_size`,
otherwise replace the destination by the source. -/
def safecpy (dst src : List Char) (dst_size : Nat) : Nat × List Char :=
  if strnlen src (dst_size + 1) > dst_size then (1, dst) else (0, src)

/-- `safecat` from the source: refuse when the concatenation would exceed
`dst_size`, otherwise append. -/
def safecat (dst src : List Char) (dst_size : Nat) : Nat × List Char :=
  if strnlen dst (dst_size + 1) + strnlen src (dst_size + 1) > dst_size then (1, dst)
  else (0, dst ++ src)

/-- The platform path-separator set; the non-Windows branch of the source has
`pathseps = "/"`. -/
def pathseps : List Char := ['/']

/-- The base-name computation inside `make_paths`: `ptr` starts at the whole
input and is advanced past the last occurrence of each separator
(`strrchr`); with the single separator `'/'` this is the suffix after the
last `'/'`. -/
def basename (inpath : List Char) : List Char :=
  (inpath.reverse.takeWhile (fun c => c ≠ '/')).reverse

/-- `make_paths` from the source.  Returns `(err, tmppath, outpath)`; the C
buffers start uninitialised and the first operation on each is a `safecpy`
(which does not read its destination), so starting them at `[]` is
observationally faithful on every path with `err = 0`, and `err` itself is a
sum of the per-operation failure flags exactly as in the source. -/
def make_paths (inpath : List Char) (outdir : Option (List Char)) (ext : List Char) :
    Nat × List Char × List Char :=
  let step1 : Nat × List Char :=
    match outdir with
    | some d =>
      if d ≠ [] then
        let s1 := safecpy [] d MAXOUTPATH
        let s2 := if d.getLast? ≠ some '/' then safecat s1.2 pathseps MAXOUTPATH
                  else (0, s1.2)
        let s3 := safecat s2.2 (basename inpath) MAXOUTPATH
        (s1.1 + s2.1 + s3.1, s3.2)
      else safecpy [] inpath MAXOUTPATH
    | none => safecpy [] inpath MAXOUTPATH
  let s4 := safecat step1.2 ext MAXOUTPATH
  let s5 := safecpy [] s4.2 MAXTMPPATH
  let s6 := safecat s5.2 ".tmp".toList MAXTMPPATH
  (step1.1 + s4.1 + s5.1 + s6.1, s6.2, s4.2)

/-- The specification's formula for the final path (spec §4.1, claim C4):
output directory (when given and nonempty) plus a separator when the
directory does not already end in one, plus the input's base name, plus the
fixed extension; otherwise the input path plus the extension. -/
def specFinalPath (inpath : List Char) (outdir : Option (List Char)) (ext : List Char) :
    List Char :=
  match outdir with
  | some d =>
    if d ≠ [] then
      d ++ (if d.getLast? ≠ some '/' then ['/'] else []) ++ basename inpath ++ ext
    else inpath ++ ext
  | none => inpath ++ ext

/-! ## Option parsing and configuration resolution (`main`, lines 201–319) -/

/-- The command-line surface as delivered by the option parser: one field per
switch declared in `add_options`.  Paths are `List Char`; tokenised options
(`format`, `color`) are `String`s compared against literals, as in the
source. -/
structure Options where
  help : Bool := false
  format : Option String := none
  color : Option String := none
  debug : Bool := false
  quiet : Bool := false
  noCrop : Bool := false
  noDenoise : Bool := false
  noSGain : Bool := false
  sgainFlag : Bool := false
  noFixBad : Bool := false
  whiteBalance : Option String := none
  compress : Bool := false
  ocl : Bool := false
  offset : Option Int := none
  matrixmax : Option Int := none
  output : Option (List Char) := none
  input : Option (List Char) := none
  deriving Repr

/-- The resolved per-run configuration: the mutable locals of `main` after
the option-processing block (lines 203–295). -/
structure Config where
  extract_jpg : Bool
  extract_raw : Bool
  extract_unconverted_raw : Bool
  file_type : OutputFileType
  log_hist : Bool
  color_encoding : ColorEncoding
  crop : Bool
  fix_bad : Bool
  denoise : Bool
  apply_sgain : Option Bool
  compress : Bool
  deriving DecidableEq, Repr

/-- The `format` switch (lines 244–261): the `Z` macro zeroes the three
extraction flags, then exactly one branch per known token sets its flag and
file type (`loghist` additionally sets `log_hist`); an unknown token is
rejected.  The tuple is
`(extract_jpg, extract_raw, extract_unconverted_raw, file_type, log_hist)`. -/
def parseFormat (fmt : String) : Option (Bool × Bool × Bool × OutputFileType × Bool) :=
  if fmt = "jpg" then some (true, false, false, .JPEG, false)
  else if fmt = "meta" then some (false, false, false, .META, false)
  else if fmt = "raw" then some (false, false, true, .RAW, false)
  else if fmt = "tiff" then some (false, true, false, .TIFF, false)
  else if fmt = "dng" then some (false, true, false, .DNG, false)
  else if fmt = "ppm-ascii" then some (false, true, false, .PPMP3, false)
  else if fmt = "ppm" then some (false, true, false, .PPMP6, false)
  else if fmt = "histogram" then some (false, true, false, .HISTOGRAM, false)
  else if fmt = "loghist" then some (false, true, false, .HISTOGRAM, true)
  else none

/-- The `color` switch (lines 262–275). -/
def parseColor (spc : String) : Option ColorEncoding :=
  if spc = "none" then some .NONE
  else if spc = "sRGB" then some .SRGB
  else if spc = "AdobeRGB" then some .ARGB
  else if spc = "ProPhotoRGB" then some .PPRGB
  else if spc = "unprocessed" then some .UNPROCESSED
  else if spc = "qtop" then some .QTOP
  else none

/-- The format-field resolution: the initialisers of `main`
(`extract_jpg = 0, extract_raw = 1, extract_unconverted_raw = 0,
file_type = DNG, log_hist = 0`) when no `format` switch is given, otherwise
`parseFormat`. -/
def fmtResult (o : Options) : Option (Bool × Bool × Bool × OutputFileType × Bool) :=
  match o.format with
  | none => some (false, true, false, .DNG, false)
  | some f => parseFormat f

/-- The colour-field resolution: default `SRGB`, otherwise `parseColor`. -/
def colResult (o : Options) : Option ColorEncoding :=
  match o.color with
  | none => some ColorEncoding.SRGB
  | some c => parseColor c

/-- Resolution of the whole option block into the locals of `main`.
`none` corresponds to the early `return 1` on an unknown `format` or
`color` token.  `apply_sgain` embeds the tri-state `int` (`-1` = auto):
`noSGain` sets it to `off`, then `sgain` to `on` (lines 281–282, in that
order, so both given means `on`). -/
def resolveConfig (o : Options) : Option Config :=
  match fmtResult o with
  | none => none
  | some (ej, er, eur, ft, lh) =>
    match colResult o with
    | none => none
    | some ce =>
      some { extract_jpg := ej
             extract_raw := er
             extract_unconverted_raw := eur
             file_type := ft
             log_hist := lh
             color_encoding := ce
             crop := !o.noCrop
             fix_bad := !o.noFixBad
             denoise := !o.noDenoise
             apply_sgain := if o.sgainFlag then some true
                            else if o.noSGain then some false else none
             compress := o.compress }

/-- The `extract_meta` computation of `main` (lines 315–319): always
derived, never user-set. -/
def extract_meta_of (c : Config) : Bool :=
  c.file_type == OutputFileType.META ||
  c.file_type == OutputFileType.DNG ||
  (c.extract_raw &&
    (c.crop || (c.color_encoding != ColorEncoding.UNPROCESSED &&
                c.color_encoding != ColorEncoding.QTOP)))

/-- Modelled from the spec: the constant `X3F_VERSION_4_0` is declared in
`x3f_io.h`, which is not among the sources; the spec (§4.4) describes it as
the fixed version threshold marking the 4.0 sensor generation.  X3F version
words carry the major version in the upper half, so 4.0 is `4 * 2^16`;
claims only depend on it being a fixed threshold. -/
def X3F_VERSION_4_0 : Nat := 4 * 2 ^ 16

/-- The spatial-gain resolution at line 415–416:
`apply_sgain == -1 ? x3f->header.version < X3F_VERSION_4_0 : apply_sgain`. -/
def resolve_sgain (apply_sgain : Option Bool) (version : Nat) : Bool :=
  match apply_sgain with
  | none => decide (version < X3F_VERSION_4_0)
  | some b => b

/-! ## Observable events and the external-world oracle

The per-file processing (lines 322–482 of `main`) is embedded as a function
from the resolved configuration and an oracle for the external collaborator
calls to the list of observable events it performs plus the error-count
delta.  Events record exactly the calls the source makes, in source
order. -/

/-- One observable action of the program. -/
inductive Event where
  /-- `fopen(infile, "rb")` -/
  | fopenEv
  /-- `x3f_new_from_file` -/
  | readEv
  /-- `x3f_load_data(x3f, x3f_get_thumb_jpeg(x3f))` -/
  | loadJpegEv
  /-- `x3f_get_prop(x3f)` -/
  | getPropEv
  /-- `x3f_load_data(x3f, x3f_get_camf(x3f))` -/
  | loadCamfEv
  /-- `x3f_load_data(x3f, DE)` for the property block -/
  | loadPropEv
  /-- `x3f_get_raw(x3f)` -/
  | getRawEv
  /-- `x3f_load_data(x3f, DE)` for the raw block -/
  | loadRawEv
  /-- `x3f_load_image_block(x3f, DE)` -/
  | loadBlockEv
  /-- the `make_paths` call -/
  | makePathsEv
  /-- `unlink(tmpfile)` -/
  | unlinkEv (p : List Char)
  /-- the spatial-gain tri-state resolution at line 415 -/
  | sgainEv (sg : Bool)
  /-- one encoder dispatch: kind, destination, resolved spatial gain,
  success, and whether a partially written file is left on failure -/
  | encodeEv (k : OutputFileType) (p : List Char) (sg : Bool) (ok : Bool) (residue : Bool)
  /-- `rename(tmpfile, outfile)` with its success -/
  | renameEv (src dst : List Char) (ok : Bool)
  /-- `x3f_delete(x3f)` -/
  | deleteEv
  /-- `fclose(f_in)` -/
  | closeEv
  /-- an `x3f_printf(ERR, ...)` failure message -/
  | errMsgEv
  /-- the usage text printed to `stderr` (`std::cerr << desc`) -/
  | usageEv
  /-- the `Unknown format` message -/
  | unknownFormatEv
  /-- the `Unknown color encoding` message -/
  | unknownColorEv
  /-- the `Could not find outdir` message of the missing-input branch -/
  | outdirErrEv
  /-- the `No files given` report (line 486) -/
  | noFilesEv
  /-- the final `Files processed: ... errors: ...` summary -/
  | summaryEv (files errors : Nat)
  deriving DecidableEq, Repr

/-- Outcomes of the external collaborator calls, supplied by the
environment.  `headerVersion` is `x3f->header.version`; `encodeResidue`
says whether a failing encoder leaves a partially written file at the temp
path. -/
structure Oracle where
  openOk : Bool
  readOk : Bool
  jpegOk : Bool
  propPresent : Bool
  propOk : Bool
  camfOk : Bool
  rawFound : Bool
  rawOk : Bool
  blockOk : Bool
  headerVersion : Nat
  encodeOk : Bool
  encodeResidue : Bool
  renameOk : Bool
  deriving Repr

/-! ## The load orchestrator (lines 348–402) -/

/-- The JPEG-thumbnail load block (lines 348–354). -/
def jpgStep (jpg : Bool) (o : Oracle) : List Event × Bool :=
  if jpg then ([.loadJpegEv], o.jpegOk) else ([], true)

/-- The metadata load block (lines 356–372): fetch the property directory
entry, load the CAMF (calibration) block — a failure there is fatal — then
load the property block only when the directory entry exists (absence is
not an error). -/
def metaStep (meta : Bool) (o : Oracle) : List Event × Bool :=
  if meta then
    if !o.camfOk then ([.getPropEv, .loadCamfEv], false)
    else if o.propPresent then ([.getPropEv, .loadCamfEv, .loadPropEv], o.propOk)
    else ([.getPropEv, .loadCamfEv], true)
  else ([], true)

/-- The decoded-raw load block (lines 374–387): find the raw directory
entry (failure fatal), then load it. -/
def rawStep (raw : Bool) (o : Oracle) : List Event × Bool :=
  if raw then
    if !o.rawFound then ([.getRawEv], false)
    else ([.getRawEv, .loadRawEv], o.rawOk)
  else ([], true)

/-- The undecoded-raw load block (lines 389–402). -/
def urawStep (uraw : Bool) (o : Oracle) : List Event × Bool :=
  if uraw then
    if !o.rawFound then ([.getRawEv], false)
    else ([.getRawEv, .loadBlockEv], o.blockOk)
  else ([], true)

/-- The load orchestrator: the four load blocks in source order, each
failure jumping to `found_error` (so nothing after the first failure is
attempted). -/
def loadPhase (jpg meta raw uraw : Bool) (o : Oracle) : List Event × Bool :=
  let s1 := jpgStep jpg o
  if !s1.2 then (s1.1, false) else
  let s2 := metaStep meta o
  if !s2.2 then (s1.1 ++ s2.1, false) else
  let s3 := rawStep raw o
  if !s3.2 then (s1.1 ++ s2.1 ++ s3.1, false) else
  let s4 := urawStep uraw o
  (s1.1 ++ s2.1 ++ s3.1 ++ s4.1, s4.2)

/-! ## Per-file processing (lines 322–482) -/

/-- The `clean_up` label: `x3f_delete(x3f)` always, then `fclose(f_in)`
when the input file was opened. -/
def cleanupEvents (openOk : Bool) : List Event :=
  [Event.deleteEv] ++ (if openOk then [Event.closeEv] else [])

/-- Abbreviation: the load phase of a resolved configuration. -/
def loadPhaseOf (c : Config) (o : Oracle) : List Event × Bool :=
  loadPhase c.extract_jpg (extract_meta_of c) c.extract_raw c.extract_unconverted_raw o

/-- The encoder dispatch and commit (lines 418–469): one encoder call
writing to the temp path, then — only on encode success — the rename to the
final path; an encode failure or a rename failure each count one error. -/
def commitStep (ft : OutputFileType) (tmpf outf : List Char) (sg : Bool) (o : Oracle) :
    List Event × Nat :=
  if !o.encodeOk then
    ([.encodeEv ft tmpf sg false o.encodeResidue, .errMsgEv], 1)
  else if !o.renameOk then
    ([.encodeEv ft tmpf sg true o.encodeResidue, .renameEv tmpf outf false, .errMsgEv], 1)
  else
    ([.encodeEv ft tmpf sg true o.encodeResidue, .renameEv tmpf outf true], 0)

/-- Processing of one input file (lines 322–482): open, read the container,
run the load orchestrator, build the paths, unlink the stale temp file,
resolve spatial gain, dispatch the encoder, and commit by rename; every
branch ends in the cleanup events.  Returns the events and the error-count
delta. -/
def processFile (c : Config) (infile : List Char) (outdir : Option (List Char))
    (o : Oracle) : List Event × Nat :=
  if !o.openOk then ([.fopenEv, .errMsgEv] ++ cleanupEvents false, 1)
  else if !o.readOk then ([.fopenEv, .readEv, .errMsgEv] ++ cleanupEvents true, 1)
  else
    let lp := loadPhaseOf c o
    let pre := [Event.fopenEv, Event.readEv] ++ lp.1
    if !lp.2 then (pre ++ [.errMsgEv] ++ cleanupEvents true, 1)
    else
      let mp := make_paths infile outdir (extension c.file_type)
      if mp.1 ≠ 0 then (pre ++ [.makePathsEv, .errMsgEv] ++ cleanupEvents true, 1)
      else
        let tmpf := mp.2.1
        let outf := mp.2.2
        let sg := resolve_sgain c.apply_sgain o.headerVersion
        let commit := commitStep c.file_type tmpf outf sg o
        (pre ++ [.makePathsEv, .unlinkEv tmpf, .sgainEv sg] ++ commit.1 ++
           cleanupEvents true, commit.2)

/-! ## The whole run (`main`) -/

/-- The run-level result: exit status, the full event trace, and the
`files` / `errors` counters of `main`. -/
structure RunResult where
  exit : Nat
  trace : List Event
  files : Nat
  errors : Nat
  deriving Repr

/-- `main` (lines 201–492): help prints the usage text and continues; an
unknown `format` or `color` token prints the usage text plus a message and
returns 1 before anything else (the message names the first offending
switch, format being checked first); a failing `check_dir` on the output
directory (`dirOk = false`) prints the usage text and continues, with the
directory string still used afterwards; a missing input prints the usage
text plus the (mislabelled) `Could not find outdir` message and returns 1 —
note the `files == 0` report is only reachable after the processing block,
where `files` is already 1.  Otherwise the single input file is processed
and the exit status is `errors > 0`. -/
def runProgram (opts : Options) (o : Oracle) (dirOk : Bool) : RunResult :=
  let helpEv : List Event := if opts.help then [Event.usageEv] else []
  match resolveConfig opts with
  | none =>
    let msg : Event :=
      match fmtResult opts with
      | none => Event.unknownFormatEv
      | some _ => Event.unknownColorEv
    ⟨1, helpEv ++ [Event.usageEv, msg], 0, 0⟩
  | some c =>
    let dirEv : List Event :=
      match opts.output with
      | some _ => if !dirOk then [Event.usageEv] else []
      | none => []
    match opts.input with
    | none => ⟨1, helpEv ++ dirEv ++ [Event.usageEv, Event.outdirErrEv], 0, 0⟩
    | some infile =>
      let pf := processFile c infile opts.output o
      let files : Nat := 1
      let finEv : List Event :=
        (if files = 0 then [Event.noFilesEv] else []) ++ [.summaryEv files pf.2]
      ⟨if pf.2 > 0 then 1 else 0, helpEv ++ dirEv ++ pf.1 ++ finEv, files, pf.2⟩

/-! ## File-system semantics of the traces -/

/-- Which paths hold a file.  Only `unlink`, a (possibly partial) encoder
write, and a successful `rename` change the file system. -/
def applyEvent (fs : List Char → Bool) : Event → (List Char → Bool)
  | .unlinkEv p => fun q => if q = p then false else fs q
  | .encodeEv _ p _ ok residue => fun q => if q = p then (ok || residue) else fs q
  | .renameEv src dst ok =>
      if ok then fun q => if q = dst then fs src else if q = src then false else fs q
      else fs
  | _ => fs

/-- Fold a trace over the file system. -/
def applyEvents (fs : List Char → Bool) (evs : List Event) : List Char → Bool :=
  evs.foldl applyEvent fs

/-! ## Helper lemmas -/

theorem safecpy_eq (dst src : List Char) (n : Nat) :
    safecpy dst src n = if src.length > n then (1, dst) else (0, src) := by
  simp only [safecpy, strnlen]
  split_ifs with h1 h2 <;> first | rfl | omega

theorem safecat_eq (dst src : List Char) (n : Nat) :
    safecat dst src n = if dst.length + src.length > n then (1, dst) else (0, dst ++ src) := by
  simp only [safecat, strnlen]
  split_ifs with h1 h2 <;> first | rfl | omega

/-- When the specified final path fits in the output bound, `make_paths`
succeeds and produces exactly that path and its `.tmp` companion. -/
theorem make_paths_success (inpath : List Char) (outdir : Option (List Char)) (ext : List Char)
    (h : (specFinalPath inpath outdir ext).length ≤ MAXOUTPATH) :
    make_paths inpath outdir ext =
      (0, specFinalPath inpath outdir ext ++ ".tmp".toList, specFinalPath inpath outdir ext) := by
  have hM : MAXOUTPATH = 1010 := rfl
  have hT : MAXTMPPATH = 1020 := rfl
  have h4 : (".tmp".toList).length = 4 := rfl
  have h1l : (['/'] : List Char).length = 1 := rfl
  rcases outdir with _ | d
  · simp only [specFinalPath, List.length_append] at h ⊢
    simp only [make_paths, safecpy_eq, safecat_eq, hM, hT]
    rw [if_neg (by omega)]
    simp only
    rw [if_neg (by simp; omega)]
    simp only
    rw [if_neg (by simp [List.length_append]; omega)]
    simp only
    rw [if_neg (by simp [List.length_append, h4]; omega)]
    simp
  · by_cases hd : d ≠ []
    · by_cases hsep : d.getLast? ≠ some '/'
      · simp only [specFinalPath, if_pos hd, if_pos hsep, List.length_append] at h ⊢
        simp only [make_paths, safecpy_eq, safecat_eq, hM, hT, if_pos hd, if_pos hsep, pathseps]
        rw [if_neg (by omega)]
        simp only
        rw [if_neg (by simp [h1l]; omega)]
        simp only
        rw [if_neg (by simp [List.length_append, h1l]; omega)]
        simp only
        rw [if_neg (by simp [List.length_append, h1l]; omega)]
        simp only
        rw [if_neg (by simp [List.length_append, h1l]; omega)]
        simp only
        rw [if_neg (by simp [List.length_append, h1l, h4]; omega)]
        simp
      · simp only [specFinalPath, if_pos hd, if_neg hsep, List.length_append] at h ⊢
        simp only [make_paths, safecpy_eq, safecat_eq, hM, hT, if_pos hd, if_neg hsep, pathseps]
        rw [if_neg (by omega)]
        simp only
        rw [if_neg (by simp; omega)]
        simp only
        rw [if_neg (by simp [List.length_append]; omega)]
        simp only
        rw [if_neg (by simp [List.length_append]; omega)]
        simp only
        rw [if_neg (by simp [List.length_append, h4]; omega)]
        simp
    · simp only [specFinalPath, if_neg hd, List.length_append] at h ⊢
      simp only [make_paths, safecpy_eq, safecat_eq, hM, hT, if_neg hd]
      rw [if_neg (by omega)]
      simp only
      rw [if_neg (by simp; omega)]
      simp only
      rw [if_neg (by simp [List.length_append]; omega)]
      simp only
      rw [if_neg (by simp [List.length_append, h4]; omega)]
      simp

/-- When the specified final path exceeds the output bound, some bounded
copy or concatenation refuses and `make_paths` reports a nonzero error. -/
theorem make_paths_overflow (inpath : List Char) (outdir : Option (List Char)) (ext : List Char)
    (h : (specFinalPath inpath outdir ext).length > MAXOUTPATH) :
    (make_paths inpath outdir ext).1 ≠ 0 := by
  have hM : MAXOUTPATH = 1010 := rfl
  have hT : MAXTMPPATH = 1020 := rfl
  have h1l : (['/'] : List Char).length = 1 := rfl
  rcases outdir with _ | d
  · simp only [specFinalPath, List.length_append] at h
    simp only [make_paths, safecpy_eq, safecat_eq, hM, hT]
    by_cases ha : inpath.length > 1010
    · rw [if_pos ha]
      simp only
      split_ifs <;> simp
    · rw [if_neg ha]
      simp only
      rw [if_pos (by simp; omega)]
      simp only
      split_ifs <;> simp
  · by_cases hd : d ≠ []
    · by_cases hsep : d.getLast? ≠ some '/'
      · simp only [specFinalPath, if_pos hd, if_pos hsep, List.length_append, h1l] at h
        simp only [make_paths, safecpy_eq, safecat_eq, hM, hT, if_pos hd, if_pos hsep, pathseps]
        by_cases ha : d.length > 1010
        · rw [if_pos ha]; simp only
          split_ifs <;> simp
        · rw [if_neg ha]; simp only
          by_cases hb : d.length + 1 > 1010
          · rw [if_pos (by simp [h1l]; omega)]; simp only
            split_ifs <;> simp
          · rw [if_neg (by simp [h1l]; omega)]; simp only
            by_cases hc : d.length + 1 + (basename inpath).length > 1010
            · rw [if_pos (by simp [List.length_append, h1l]; omega)]; simp only
              split_ifs <;> simp
            · rw [if_neg (by simp [List.length_append, h1l]; omega)]; simp only
              rw [if_pos (by simp [List.length_append, h1l]; omega)]; simp only
              split_ifs <;> simp
      · simp only [specFinalPath, if_pos hd, if_neg hsep, List.length_append,
          List.length_nil] at h
        simp only [make_paths, safecpy_eq, safecat_eq, hM, hT, if_pos hd, if_neg hsep, pathseps]
        by_cases ha : d.length > 1010
        · rw [if_pos ha]; simp only
          split_ifs <;> simp
        · rw [if_neg ha]; simp only
          by_cases hc : d.length + (basename inpath).length > 1010
          · rw [if_pos (by simp; omega)]; simp only
            split_ifs <;> simp
          · rw [if_neg (by simp; omega)]; simp only
            rw [if_pos (by simp [List.length_append]; omega)]; simp only
            split_ifs <;> simp
    · simp only [specFinalPath, if_neg hd, List.length_append] at h
      simp only [make_paths, safecpy_eq, safecat_eq, hM, hT, if_neg hd]
      by_cases ha : inpath.length > 1010
      · rw [if_pos ha]; simp only
        split_ifs <;> simp
      · rw [if_neg ha]; simp only
        rw [if_pos (by simp; omega)]; simp only
        split_ifs <;> simp

/-- Classifier for the section-load events issued by the load
orchestrator. -/
def isLoadEvent : Event → Bool
  | .loadJpegEv => true
  | .getPropEv => true
  | .loadCamfEv => true
  | .loadPropEv => true
  | .getRawEv => true
  | .loadRawEv => true
  | .loadBlockEv => true
  | _ => false

theorem jpgStep_loads (jpg : Bool) (o : Oracle) :
    ∀ e ∈ (jpgStep jpg o).1, isLoadEvent e = true := by
  simp only [jpgStep]
  split_ifs <;> (intro e he; fin_cases he <;> rfl)

theorem metaStep_loads (meta : Bool) (o : Oracle) :
    ∀ e ∈ (metaStep meta o).1, isLoadEvent e = true := by
  simp only [metaStep]
  split_ifs <;> (intro e he; fin_cases he <;> rfl)

theorem rawStep_loads (raw : Bool) (o : Oracle) :
    ∀ e ∈ (rawStep raw o).1, isLoadEvent e = true := by
  simp only [rawStep]
  split_ifs <;> (intro e he; fin_cases he <;> rfl)

theorem urawStep_loads (uraw : Bool) (o : Oracle) :
    ∀ e ∈ (urawStep uraw o).1, isLoadEvent e = true := by
  simp only [urawStep]
  split_ifs <;> (intro e he; fin_cases he <;> rfl)

/-- The load orchestrator only emits events of its four blocks. -/
theorem loadPhase_subset (jpg meta raw uraw : Bool) (o : Oracle) :
    ∀ e ∈ (loadPhase jpg meta raw uraw o).1,
      e ∈ (jpgStep jpg o).1 ∨ e ∈ (metaStep meta o).1 ∨
      e ∈ (rawStep raw o).1 ∨ e ∈ (urawStep uraw o).1 := by
  intro e he
  simp only [loadPhase] at he
  split_ifs at he <;> (simp only [List.mem_append] at he; tauto)

/-- Every event issued by the load orchestrator is a section-load event. -/
theorem loadPhase_loads (jpg meta raw uraw : Bool) (o : Oracle) :
    ∀ e ∈ (loadPhase jpg meta raw uraw o).1, isLoadEvent e = true := by
  intro e he
  rcases loadPhase_subset jpg meta raw uraw o e he with h | h | h | h
  · exact jpgStep_loads jpg o e h
  · exact metaStep_loads meta o e h
  · exact rawStep_loads raw o e h
  · exact urawStep_loads uraw o e h

/-! ## Trace-shape lemmas for `processFile` -/

theorem processFile_open_fail (c : Config) (infile : List Char)
    (outdir : Option (List Char)) (o : Oracle) (h : o.openOk = false) :
    processFile c infile outdir o =
      ([.fopenEv, .errMsgEv] ++ cleanupEvents false, 1) := by
  simp [processFile, h]

theorem processFile_read_fail (c : Config) (infile : List Char)
    (outdir : Option (List Char)) (o : Oracle)
    (h1 : o.openOk = true) (h2 : o.readOk = false) :
    processFile c infile outdir o =
      ([.fopenEv, .readEv, .errMsgEv] ++ cleanupEvents true, 1) := by
  simp [processFile, h1, h2]

theorem processFile_load_fail (c : Config) (infile : List Char)
    (outdir : Option (List Char)) (o : Oracle)
    (h1 : o.openOk = true) (h2 : o.readOk = true)
    (h3 : (loadPhaseOf c o).2 = false) :
    processFile c infile outdir o =
      ([Event.fopenEv, Event.readEv] ++ (loadPhaseOf c o).1 ++ [Event.errMsgEv] ++
        cleanupEvents true, 1) := by
  simp [processFile, h1, h2, h3]

theorem processFile_path_fail (c : Config) (infile : List Char)
    (outdir : Option (List Char)) (o : Oracle)
    (h1 : o.openOk = true) (h2 : o.readOk = true)
    (h3 : (loadPhaseOf c o).2 = true)
    (h4 : (make_paths infile outdir (extension c.file_type)).1 ≠ 0) :
    processFile c infile outdir o =
      ([Event.fopenEv, Event.readEv] ++ (loadPhaseOf c o).1 ++
        [Event.makePathsEv, Event.errMsgEv] ++ cleanupEvents true, 1) := by
  rw [processFile]
  rw [if_neg (by simp [h1]), if_neg (by simp [h2])]
  simp only
  rw [if_neg (by simp [h3]), if_pos h4]

theorem processFile_dispatch (c : Config) (infile : List Char)
    (outdir : Option (List Char)) (o : Oracle)
    (h1 : o.openOk = true) (h2 : o.readOk = true)
    (h3 : (loadPhaseOf c o).2 = true)
    (h4 : (make_paths infile outdir (extension c.file_type)).1 = 0) :
    processFile c infile outdir o =
      ([Event.fopenEv, Event.readEv] ++ (loadPhaseOf c o).1 ++
        [Event.makePathsEv,
         Event.unlinkEv (make_paths infile outdir (extension c.file_type)).2.1,
         Event.sgainEv (resolve_sgain c.apply_sgain o.headerVersion)] ++
        (commitStep c.file_type
          (make_paths infile outdir (extension c.file_type)).2.1
          (make_paths infile outdir (extension c.file_type)).2.2
          (resolve_sgain c.apply_sgain o.headerVersion) o).1 ++
        cleanupEvents true,
       (commitStep c.file_type
          (make_paths infile outdir (extension c.file_type)).2.1
          (make_paths infile outdir (extension c.file_type)).2.2
          (resolve_sgain c.apply_sgain o.headerVersion) o).2) := by
  rw [processFile]
  rw [if_neg (by simp [h1]), if_neg (by simp [h2])]
  simp only
  rw [if_neg (by simp [h3]), if_neg (by simp [h4])]

/-! ## File-system helper lemmas -/

/-- Classifier for events that change the file system. -/
def touchesFS : Event → Bool
  | .unlinkEv _ => true
  | .encodeEv _ _ _ _ _ => true
  | .renameEv _ _ _ => true
  | _ => false

theorem applyEvents_append (fs : List Char → Bool) (l1 l2 : List Event) :
    applyEvents fs (l1 ++ l2) = applyEvents (applyEvents fs l1) l2 :=
  List.foldl_append _ _ _ _

theorem applyEvent_id (fs : List Char → Bool) (e : Event)
    (h : touchesFS e = false) : applyEvent fs e = fs := by
  cases e <;> first | rfl | simp [touchesFS] at h

theorem applyEvents_id (fs : List Char → Bool) (l : List Event)
    (h : ∀ e ∈ l, touchesFS e = false) : applyEvents fs l = fs := by
  induction l with
  | nil => rfl
  | cons e l ih =>
    have he : touchesFS e = false := h e (List.mem_cons_self e l)
    have : applyEvents fs (e :: l) = applyEvents (applyEvent fs e) l := rfl
    rw [this, applyEvent_id fs e he]
    exact ih fun x hx => h x (List.mem_cons_of_mem e hx)

theorem load_not_touchesFS (e : Event) (h : isLoadEvent e = true) :
    touchesFS e = false := by
  cases e <;> first | rfl | simp [isLoadEvent] at h

/-! ## Shared concrete fixtures (used by witnesses and counterexamples) -/

/-- The configuration resolved from an empty command line: DNG output,
decoded-raw extraction, sRGB, all corrections on, spatial gain on auto. -/
def cDng : Config :=
  { extract_jpg := false, extract_raw := true, extract_unconverted_raw := false
    file_type := OutputFileType.DNG, log_hist := false
    color_encoding := ColorEncoding.SRGB, crop := true, fix_bad := true
    denoise := true, apply_sgain := none, compress := false }

theorem resolveConfig_default : resolveConfig {} = some cDng := rfl

/-- An oracle on which every external call succeeds. -/
def orcOk : Oracle :=
  { openOk := true, readOk := true, jpegOk := true, propPresent := true
    propOk := true, camfOk := true, rawFound := true, rawOk := true
    blockOk := true, headerVersion := 100, encodeOk := true
    encodeResidue := false, renameOk := true }

/-- Reading the format-determined `Config` fields back out of a resolved
configuration. -/
theorem resolveConfig_fmt_fields (o : Options) (c : Config)
    (ej er eur : Bool) (ft : OutputFileType) (lh : Bool)
    (h : resolveConfig o = some c)
    (hf : fmtResult o = some (ej, er, eur, ft, lh)) :
    c.extract_jpg = ej ∧ c.extract_raw = er ∧ c.extract_unconverted_raw = eur ∧
    c.file_type = ft ∧ c.log_hist = lh := by
  simp only [resolveConfig, hf] at h
  cases hc : colResult o with
  | none => rw [hc] at h; cases h
  | some ce =>
    rw [hc] at h
    injection h with h
    subst h
    simp

/-! ## Claim C2 -/

/-- C2: for every resolved extraction request, the derived `extract_meta`
flag is true exactly when the output kind is `meta` or `dng`, or when
raw-decoded extraction is requested and crop is enabled or the colour
encoding is not one of `unprocessed`/`qtop`.  (`extract_meta` is a derived
function of the resolved request; the option surface has no field for
it.) -/
theorem C2_extract_meta_derived (o : Options) (c : Config)
    (h : resolveConfig o = some c) :
    extract_meta_of c = true ↔
      (c.file_type = OutputFileType.META ∨ c.file_type = OutputFileType.DNG ∨
        (c.extract_raw = true ∧ (c.crop = true ∨
          (c.color_encoding ≠ ColorEncoding.UNPROCESSED ∧
           c.color_encoding ≠ ColorEncoding.QTOP)))) := by
  clear h
  rcases c with ⟨ej, er, eur, ft, lh, ce, cr, fb, dn, asg, cp⟩
  simp only [extract_meta_of]
  cases ft <;> cases er <;> cases cr <;> cases ce <;> decide

/-- Witness for C2 at the default (empty) command line. -/
theorem C2_extract_meta_derived_witness :
    extract_meta_of cDng = true ↔
      (cDng.file_type = OutputFileType.META ∨ cDng.file_type = OutputFileType.DNG ∨
        (cDng.extract_raw = true ∧ (cDng.crop = true ∨
          (cDng.color_encoding ≠ ColorEncoding.UNPROCESSED ∧
           cDng.color_encoding ≠ ColorEncoding.QTOP)))) :=
  C2_extract_meta_derived {} cDng resolveConfig_default

/-! ## Claim C3 -/

/-- The fixed format table of the specification (§4.2 and §6): the sections
each format token resolves to, with `dng` as the default when no format is
given. -/
def tableSpec (fmt : Option String) (c : Config) : Prop :=
  (fmt = none → c.file_type = OutputFileType.DNG ∧ c.extract_jpg = false ∧
    c.extract_raw = true ∧ c.extract_unconverted_raw = false) ∧
  (fmt = some "dng" → c.file_type = OutputFileType.DNG ∧ c.extract_jpg = false ∧
    c.extract_raw = true ∧ c.extract_unconverted_raw = false) ∧
  (fmt = some "meta" → c.file_type = OutputFileType.META ∧ c.extract_jpg = false ∧
    c.extract_raw = false ∧ c.extract_unconverted_raw = false) ∧
  (fmt = some "jpg" → c.file_type = OutputFileType.JPEG ∧ c.extract_jpg = true ∧
    c.extract_raw = false ∧ c.extract_unconverted_raw = false) ∧
  (fmt = some "raw" → c.file_type = OutputFileType.RAW ∧ c.extract_jpg = false ∧
    c.extract_raw = false ∧ c.extract_unconverted_raw = true) ∧
  (fmt = some "tiff" → c.file_type = OutputFileType.TIFF ∧ c.extract_jpg = false ∧
    c.extract_raw = true ∧ c.extract_unconverted_raw = false) ∧
  (fmt = some "ppm-ascii" → c.file_type = OutputFileType.PPMP3 ∧ c.extract_jpg = false ∧
    c.extract_raw = true ∧ c.extract_unconverted_raw = false) ∧
  (fmt = some "ppm" → c.file_type = OutputFileType.PPMP6 ∧ c.extract_jpg = false ∧
    c.extract_raw = true ∧ c.extract_unconverted_raw = false) ∧
  (fmt = some "histogram" → c.file_type = OutputFileType.HISTOGRAM ∧
    c.extract_jpg = false ∧ c.extract_raw = true ∧
    c.extract_unconverted_raw = false ∧ c.log_hist = false) ∧
  (fmt = some "loghist" → c.file_type = OutputFileType.HISTOGRAM ∧
    c.extract_jpg = false ∧ c.extract_raw = true ∧
    c.extract_unconverted_raw = false ∧ c.log_hist = true)

/-- C3: the plan resolver yields exactly the sections of the fixed table —
`meta`: no sections, `jpg`: preview only, `raw`: undecoded raw only,
`tiff`/`dng`/`ppm-ascii`/`ppm`/`histogram`/`loghist`: decoded raw only —
with `dng` as the default when no format is given; and an unknown format or
colour token makes the run exit 1 before any file is opened or counted,
never silently defaulting. -/
theorem C3_format_table (o : Options) (orc : Oracle) (dirOk : Bool) :
    (∀ c, resolveConfig o = some c → tableSpec o.format c) ∧
    (resolveConfig o = none →
      (runProgram o orc dirOk).exit = 1 ∧ (runProgram o orc dirOk).files = 0 ∧
      Event.fopenEv ∉ (runProgram o orc dirOk).trace) := by
  constructor
  · intro c h
    refine ⟨?_, ?_, ?_, ?_, ?_, ?_, ?_, ?_, ?_, ?_⟩ <;> intro hf
    · have hfr : fmtResult o = some (false, true, false, OutputFileType.DNG, false) := by
        simp only [fmtResult, hf]
      obtain ⟨h1, h2, h3, h4, h5⟩ := resolveConfig_fmt_fields o c _ _ _ _ _ h hfr
      exact ⟨h4, h1, h2, h3⟩
    · have hfr : fmtResult o = some (false, true, false, OutputFileType.DNG, false) := by
        simp only [fmtResult, hf]; rfl
      obtain ⟨h1, h2, h3, h4, h5⟩ := resolveConfig_fmt_fields o c _ _ _ _ _ h hfr
      exact ⟨h4, h1, h2, h3⟩
    · have hfr : fmtResult o = some (false, false, false, OutputFileType.META, false) := by
        simp only [fmtResult, hf]; rfl
      obtain ⟨h1, h2, h3, h4, h5⟩ := resolveConfig_fmt_fields o c _ _ _ _ _ h hfr
      exact ⟨h4, h1, h2, h3⟩
    · have hfr : fmtResult o = some (true, false, false, OutputFileType.JPEG, false) := by
        simp only [fmtResult, hf]; rfl
      obtain ⟨h1, h2, h3, h4, h5⟩ := resolveConfig_fmt_fields o c _ _ _ _ _ h hfr
      exact ⟨h4, h1, h2, h3⟩
    · have hfr : fmtResult o = some (false, false, true, OutputFileType.RAW, false) := by
        simp only [fmtResult, hf]; rfl
      obtain ⟨h1, h2, h3, h4, h5⟩ := resolveConfig_fmt_fields o c _ _ _ _ _ h hfr
      exact ⟨h4, h1, h2, h3⟩
    · have hfr : fmtResult o = some (false, true, false, OutputFileType.TIFF, false) := by
        simp only [fmtResult, hf]; rfl
      obtain ⟨h1, h2, h3, h4, h5⟩ := resolveConfig_fmt_fields o c _ _ _ _ _ h hfr
      exact ⟨h4, h1, h2, h3⟩
    · have hfr : fmtResult o = some (false, true, false, OutputFileType.PPMP3, false) := by
        simp only [fmtResult, hf]; rfl
      obtain ⟨h1, h2, h3, h4, h5⟩ := resolveConfig_fmt_fields o c _ _ _ _ _ h hfr
      exact ⟨h4, h1, h2, h3⟩
    · have hfr : fmtResult o = some (false, true, false, OutputFileType.PPMP6, false) := by
        simp only [fmtResult, hf]; rfl
      obtain ⟨h1, h2, h3, h4, h5⟩ := resolveConfig_fmt_fields o c _ _ _ _ _ h hfr
      exact ⟨h4, h1, h2, h3⟩
    · have hfr : fmtResult o = some (false, true, false, OutputFileType.HISTOGRAM, false) := by
        simp only [fmtResult, hf]; rfl
      obtain ⟨h1, h2, h3, h4, h5⟩ := resolveConfig_fmt_fields o c _ _ _ _ _ h hfr
      exact ⟨h4, h1, h2, h3, h5⟩
    · have hfr : fmtResult o = some (false, true, false, OutputFileType.HISTOGRAM, true) := by
        simp only [fmtResult, hf]; rfl
      obtain ⟨h1, h2, h3, h4, h5⟩ := resolveConfig_fmt_fields o c _ _ _ _ _ h hfr
      exact ⟨h4, h1, h2, h3, h5⟩
  · intro hres
    refine ⟨by simp [runProgram, hres], by simp [runProgram, hres], ?_⟩
    simp only [runProgram, hres]
    rcases hf : fmtResult o with _ | t <;> by_cases hh : o.help <;> simp [hf, hh]

/-- Witness for C3 at the `meta` format token. -/
theorem C3_format_table_witness :
    tableSpec (some "meta")
      { extract_jpg := false, extract_raw := false, extract_unconverted_raw := false
        file_type := OutputFileType.META, log_hist := false
        color_encoding := ColorEncoding.SRGB, crop := true, fix_bad := true
        denoise := true, apply_sgain := none, compress := false } :=
  (C3_format_table { format := some "meta" } orcOk true).1 _ (by rfl)

/-! ## Claim C4 -/

/-- C4: the path builder yields
`finalPath = outputDir + baseName(input) + extension` (separator inserted
only when the directory does not already end in one) when an output
directory is given, otherwise `finalPath = input + extension`, and
`tempPath = finalPath + ".tmp"`; success (`err = 0`) holds exactly when the
final path fits the fixed bound, and an exceeded bound is reported as one
counted error for that file — the encoder is never dispatched — rather
than a crash. -/
theorem C4_path_builder (inpath : List Char) (outdir : Option (List Char)) (ext : List Char) :
    ((make_paths inpath outdir ext).1 = 0 ↔
      (specFinalPath inpath outdir ext).length ≤ MAXOUTPATH) ∧
    ((make_paths inpath outdir ext).1 = 0 →
      (make_paths inpath outdir ext).2.2 = specFinalPath inpath outdir ext ∧
      (make_paths inpath outdir ext).2.1 =
        specFinalPath inpath outdir ext ++ ".tmp".toList) ∧
    (∀ (c : Config) (o : Oracle),
      o.openOk = true → o.readOk = true → (loadPhaseOf c o).2 = true →
      (make_paths inpath outdir (extension c.file_type)).1 ≠ 0 →
      (processFile c inpath outdir o).2 = 1 ∧
      ∀ k p sg ok r, Event.encodeEv k p sg ok r ∉ (processFile c inpath outdir o).1) := by
  have key : ∀ e : List Char, (make_paths inpath outdir e).1 = 0 →
      (specFinalPath inpath outdir e).length ≤ MAXOUTPATH := by
    intro e h
    by_contra hgt
    exact make_paths_overflow inpath outdir e (by omega) h
  refine ⟨⟨key ext, fun h => ?_⟩, fun h => ?_, ?_⟩
  · rw [make_paths_success inpath outdir ext h]
  · rw [make_paths_success inpath outdir ext (key ext h)]
    exact ⟨rfl, rfl⟩
  · intro c o h1 h2 h3 h4
    rw [processFile_path_fail c inpath outdir o h1 h2 h3 h4]
    refine ⟨rfl, ?_⟩
    intro k p sg ok r hmem
    simp only [cleanupEvents, List.append_assoc, List.mem_append, List.mem_cons,
      List.mem_singleton, List.not_mem_nil, or_false, false_or, if_true,
      reduceCtorEq] at hmem
    have := loadPhase_loads c.extract_jpg (extract_meta_of c) c.extract_raw
      c.extract_unconverted_raw o _ hmem
    simp [isLoadEvent] at this

/-- Witness for C4 at the spec's own example: input `photo.x3f`, no output
directory, extension `.dng`. -/
theorem C4_path_builder_witness :
    (make_paths "photo.x3f".toList none ".dng".toList).2.2 =
      specFinalPath "photo.x3f".toList none ".dng".toList ∧
    (make_paths "photo.x3f".toList none ".dng".toList).2.1 =
      specFinalPath "photo.x3f".toList none ".dng".toList ++ ".tmp".toList :=
  (C4_path_builder "photo.x3f".toList none ".dng".toList).2.1 (by decide)

/-! ## Claim C5 -/

/-- The commit step always starts with the encoder dispatch carrying the
resolved spatial gain, and nothing after the dispatch resolves spatial
gain again. -/
theorem commitStep_head (ft : OutputFileType) (tmpf outf : List Char) (sg : Bool)
    (o : Oracle) :
    (commitStep ft tmpf outf sg o).1 =
      Event.encodeEv ft tmpf sg o.encodeOk o.encodeResidue ::
        (commitStep ft tmpf outf sg o).1.tail ∧
    ∀ b, Event.sgainEv b ∉ (commitStep ft tmpf outf sg o).1.tail := by
  rcases he : o.encodeOk <;> rcases hr : o.renameOk <;> simp [commitStep, he, hr]

/-- C5: with the spatial-gain tri-state left at auto, the resolved value is
on exactly when the container's header version is strictly below the 4.0
threshold (and off otherwise), and the resolution happens immediately
before encoder dispatch — between the temp unlink and the encode event —
with no spatial-gain resolution anywhere else in the trace. -/
theorem C5_sgain_default (c : Config) (infile : List Char)
    (outdir : Option (List Char)) (o : Oracle)
    (h1 : o.openOk = true) (h2 : o.readOk = true)
    (h3 : (loadPhaseOf c o).2 = true)
    (h4 : (make_paths infile outdir (extension c.file_type)).1 = 0)
    (h5 : c.apply_sgain = none) :
    resolve_sgain c.apply_sgain o.headerVersion =
      decide (o.headerVersion < X3F_VERSION_4_0) ∧
    ∃ pre post,
      (processFile c infile outdir o).1 =
        pre ++
          [Event.unlinkEv (make_paths infile outdir (extension c.file_type)).2.1,
           Event.sgainEv (resolve_sgain c.apply_sgain o.headerVersion),
           Event.encodeEv c.file_type
             (make_paths infile outdir (extension c.file_type)).2.1
             (resolve_sgain c.apply_sgain o.headerVersion)
             o.encodeOk o.encodeResidue] ++ post ∧
      (∀ b, Event.sgainEv b ∉ pre) ∧ (∀ b, Event.sgainEv b ∉ post) := by
  constructor
  · rw [h5]; rfl
  · rw [processFile_dispatch c infile outdir o h1 h2 h3 h4]
    obtain ⟨hhead, htail⟩ := commitStep_head c.file_type
      (make_paths infile outdir (extension c.file_type)).2.1
      (make_paths infile outdir (extension c.file_type)).2.2
      (resolve_sgain c.apply_sgain o.headerVersion) o
    refine ⟨[Event.fopenEv, Event.readEv] ++ (loadPhaseOf c o).1 ++ [Event.makePathsEv],
      (commitStep c.file_type
         (make_paths infile outdir (extension c.file_type)).2.1
         (make_paths infile outdir (extension c.file_type)).2.2
         (resolve_sgain c.apply_sgain o.headerVersion) o).1.tail ++
        cleanupEvents true, ?_, ?_, ?_⟩
    · conv_lhs => rw [hhead]
      simp [cleanupEvents]
    · intro b hb
      simp only [List.mem_append, List.mem_cons, List.mem_singleton,
        List.not_mem_nil, or_false, false_or, reduceCtorEq] at hb
      have := loadPhase_loads c.extract_jpg (extract_meta_of c) c.extract_raw
        c.extract_unconverted_raw o _ hb
      simp [isLoadEvent] at this
    · intro b hb
      simp only [cleanupEvents, if_true, List.mem_append, List.mem_cons,
        List.mem_singleton, List.not_mem_nil, or_false, false_or,
        reduceCtorEq] at hb
      exact htail b hb

/-- Witness for C5 at the default configuration, an all-success oracle and
header version 100 (below the 4.0 threshold). -/
theorem C5_sgain_default_witness :
    resolve_sgain cDng.apply_sgain orcOk.headerVersion =
      decide (orcOk.headerVersion < X3F_VERSION_4_0) ∧
    ∃ pre post,
      (processFile cDng "a.x3f".toList none orcOk).1 =
        pre ++
          [Event.unlinkEv (make_paths "a.x3f".toList none (extension cDng.file_type)).2.1,
           Event.sgainEv (resolve_sgain cDng.apply_sgain orcOk.headerVersion),
           Event.encodeEv cDng.file_type
             (make_paths "a.x3f".toList none (extension cDng.file_type)).2.1
             (resolve_sgain cDng.apply_sgain orcOk.headerVersion)
             orcOk.encodeOk orcOk.encodeResidue] ++ post ∧
      (∀ b, Event.sgainEv b ∉ pre) ∧ (∀ b, Event.sgainEv b ∉ post) :=
  C5_sgain_default cDng "a.x3f".toList none orcOk rfl rfl (by decide) (by decide) rfl

/-! ## Claim C1 -/

/-- The pipeline reaches the unlink/dispatch stage: the open, the container
read and every planned section load succeeded, and the paths fit their
bounds. -/
def reachesDispatch (c : Config) (infile : List Char) (outdir : Option (List Char))
    (o : Oracle) : Prop :=
  o.openOk = true ∧ o.readOk = true ∧ (loadPhaseOf c o).2 = true ∧
  (make_paths infile outdir (extension c.file_type)).1 = 0

/-- On an aborted pipeline (any failure before the unlink/dispatch stage)
the trace never touches the file system. -/
theorem processFile_fs_no_dispatch (c : Config) (infile : List Char)
    (outdir : Option (List Char)) (o : Oracle) (fs : List Char → Bool)
    (h : ¬ reachesDispatch c infile outdir o) :
    applyEvents fs (processFile c infile outdir o).1 = fs := by
  cases ho : o.openOk with
  | false =>
    rw [processFile_open_fail c infile outdir o ho]
    refine applyEvents_id fs _ ?_
    intro e he; fin_cases he <;> rfl
  | true =>
    cases hr : o.readOk with
    | false =>
      rw [processFile_read_fail c infile outdir o ho hr]
      refine applyEvents_id fs _ ?_
      intro e he; fin_cases he <;> rfl
    | true =>
      cases hl : (loadPhaseOf c o).2 with
      | false =>
        rw [processFile_load_fail c infile outdir o ho hr hl]
        refine applyEvents_id fs _ ?_
        intro e he
        simp only [List.mem_append] at he
        rcases he with ((he | he) | he) | he
        · fin_cases he <;> rfl
        · exact load_not_touchesFS e (loadPhase_loads c.extract_jpg (extract_meta_of c)
            c.extract_raw c.extract_unconverted_raw o e he)
        · fin_cases he <;> rfl
        · simp only [cleanupEvents, if_true] at he
          fin_cases he <;> rfl
      | true =>
        by_cases hm : (make_paths infile outdir (extension c.file_type)).1 = 0
        · exact absurd ⟨ho, hr, hl, hm⟩ h
        · rw [processFile_path_fail c infile outdir o ho hr hl hm]
          refine applyEvents_id fs _ ?_
          intro e he
          simp only [List.mem_append] at he
          rcases he with ((he | he) | he) | he
          · fin_cases he <;> rfl
          · exact load_not_touchesFS e (loadPhase_loads c.extract_jpg (extract_meta_of c)
              c.extract_raw c.extract_unconverted_raw o e he)
          · fin_cases he <;> rfl
          · simp only [cleanupEvents, if_true] at he
            fin_cases he <;> rfl

/-- The temp path produced by a successful `make_paths` differs from the
final path (it is the final path plus `.tmp`). -/
theorem make_paths_tmp_ne (inpath : List Char) (outdir : Option (List Char))
    (ext : List Char) (h : (make_paths inpath outdir ext).1 = 0) :
    (make_paths inpath outdir ext).2.1 ≠ (make_paths inpath outdir ext).2.2 := by
  have hle : (specFinalPath inpath outdir ext).length ≤ MAXOUTPATH := by
    by_contra hgt
    exact make_paths_overflow inpath outdir ext (by omega) h
  rw [make_paths_success inpath outdir ext hle]
  intro hcontra
  have hlen := congrArg List.length hcontra
  have h4 : (".tmp".toList).length = 4 := rfl
  simp only [List.length_append, h4] at hlen
  omega

/-- C1: a file becomes visible at the final path exactly when the whole
pipeline reached dispatch, the encoder succeeded and the rename succeeded;
the stale temp file is unlinked before the encode; an encode failure counts
one error and leaves the temp path exactly as the encoder left it (the
protocol never removes it); a failed rename counts one error even though
encoding succeeded. -/
theorem C1_commit_protocol (c : Config) (infile : List Char)
    (outdir : Option (List Char)) (o : Oracle) (fs : List Char → Bool)
    (hfs : fs (make_paths infile outdir (extension c.file_type)).2.2 = false) :
    (applyEvents fs (processFile c infile outdir o).1
        (make_paths infile outdir (extension c.file_type)).2.2 = true ↔
      (reachesDispatch c infile outdir o ∧ o.encodeOk = true ∧ o.renameOk = true)) ∧
    (reachesDispatch c infile outdir o →
      ∃ pre post, (processFile c infile outdir o).1 =
        pre ++
          [Event.unlinkEv (make_paths infile outdir (extension c.file_type)).2.1,
           Event.sgainEv (resolve_sgain c.apply_sgain o.headerVersion),
           Event.encodeEv c.file_type
             (make_paths infile outdir (extension c.file_type)).2.1
             (resolve_sgain c.apply_sgain o.headerVersion)
             o.encodeOk o.encodeResidue] ++ post) ∧
    (reachesDispatch c infile outdir o → o.encodeOk = false →
      (processFile c infile outdir o).2 = 1 ∧
      applyEvents fs (processFile c infile outdir o).1
        (make_paths infile outdir (extension c.file_type)).2.1 = o.encodeResidue) ∧
    (reachesDispatch c infile outdir o → o.encodeOk = true → o.renameOk = false →
      (processFile c infile outdir o).2 = 1) := by
  by_cases hreach : reachesDispatch c infile outdir o
  · obtain ⟨h1, h2, h3, h4⟩ := hreach
    have hne := make_paths_tmp_ne infile outdir (extension c.file_type) h4
    have hne2 : (make_paths infile outdir (extension c.file_type)).2.2 ≠
        (make_paths infile outdir (extension c.file_type)).2.1 := Ne.symm hne
    have htr := processFile_dispatch c infile outdir o h1 h2 h3 h4
    have hpre : ∀ g : List Char → Bool,
        applyEvents g ([Event.fopenEv, Event.readEv] ++ (loadPhaseOf c o).1) = g := by
      intro g
      rw [applyEvents_append]
      refine applyEvents_id _ _ ?_
      intro e he
      exact load_not_touchesFS e (loadPhase_loads c.extract_jpg (extract_meta_of c)
        c.extract_raw c.extract_unconverted_raw o e he)
    have hfs' : ∀ p : List Char,
        applyEvents fs (processFile c infile outdir o).1 p =
          applyEvents (fun q => if q = (make_paths infile outdir (extension c.file_type)).2.1
              then false else fs q)
            ((commitStep c.file_type
               (make_paths infile outdir (extension c.file_type)).2.1
               (make_paths infile outdir (extension c.file_type)).2.2
               (resolve_sgain c.apply_sgain o.headerVersion) o).1 ++
             cleanupEvents true) p := by
      intro p
      rw [htr]
      simp only [List.append_assoc]
      rw [show ([Event.fopenEv, Event.readEv] ++ ((loadPhaseOf c o).1 ++
        ([Event.makePathsEv,
          Event.unlinkEv (make_paths infile outdir (extension c.file_type)).2.1,
          Event.sgainEv (resolve_sgain c.apply_sgain o.headerVersion)] ++
         ((commitStep c.file_type
            (make_paths infile outdir (extension c.file_type)).2.1
            (make_paths infile outdir (extension c.file_type)).2.2
            (resolve_sgain c.apply_sgain o.headerVersion) o).1 ++
          cleanupEvents true)))) =
        (([Event.fopenEv, Event.readEv] ++ (loadPhaseOf c o).1) ++
         ([Event.makePathsEv,
           Event.unlinkEv (make_paths infile outdir (extension c.file_type)).2.1,
           Event.sgainEv (resolve_sgain c.apply_sgain o.headerVersion)] ++
          ((commitStep c.file_type
             (make_paths infile outdir (extension c.file_type)).2.1
             (make_paths infile outdir (extension c.file_type)).2.2
             (resolve_sgain c.apply_sgain o.headerVersion) o).1 ++
           cleanupEvents true))) from by simp]
      rw [applyEvents_append, hpre, applyEvents_append]
      rfl
    refine ⟨?_, ?_, ?_, ?_⟩
    · rw [hfs']
      cases he : o.encodeOk with
      | false =>
        simp only [commitStep, he, Bool.not_false, if_true]
        simp [applyEvents, applyEvent, cleanupEvents, hne, hne2, hfs, h1, h2, h3, h4,
          reachesDispatch, he]
      | true =>
        cases hrn : o.renameOk with
        | false =>
          simp only [commitStep, he, hrn, Bool.not_true, Bool.false_eq_true, if_false,
            Bool.not_false, if_true]
          simp [applyEvents, applyEvent, cleanupEvents, hne, hne2, hfs, h1, h2, h3, h4,
            reachesDispatch, he, hrn]
        | true =>
          simp only [commitStep, he, hrn, Bool.not_true, Bool.false_eq_true, if_false]
          simp [applyEvents, applyEvent, cleanupEvents, hne, hne2, hfs, h1, h2, h3, h4,
            reachesDispatch, he, hrn]
    · intro _
      rw [htr]
      obtain ⟨hhead, _⟩ := commitStep_head c.file_type
        (make_paths infile outdir (extension c.file_type)).2.1
        (make_paths infile outdir (extension c.file_type)).2.2
        (resolve_sgain c.apply_sgain o.headerVersion) o
      refine ⟨[Event.fopenEv, Event.readEv] ++ (loadPhaseOf c o).1 ++ [Event.makePathsEv],
        (commitStep c.file_type
           (make_paths infile outdir (extension c.file_type)).2.1
           (make_paths infile outdir (extension c.file_type)).2.2
           (resolve_sgain c.apply_sgain o.headerVersion) o).1.tail ++
          cleanupEvents true, ?_⟩
      conv_lhs => rw [hhead]
      simp
    · intro _ he
      constructor
      · rw [htr]
        simp [commitStep, he]
      · rw [hfs']
        simp only [commitStep, he, Bool.not_false, if_true]
        simp [applyEvents, applyEvent, cleanupEvents]
    · intro _ he hrn
      rw [htr]
      simp [commitStep, he, hrn]
  · refine ⟨?_, fun h => absurd h hreach, fun h => absurd h hreach,
      fun h => absurd h hreach⟩
    rw [processFile_fs_no_dispatch c infile outdir o fs hreach, hfs]
    simp [hreach]

/-- Witness for C1 at the default configuration, an all-success oracle and
an initially empty file system. -/
theorem C1_commit_protocol_witness :
    (applyEvents (fun _ => false) (processFile cDng "a.x3f".toList none orcOk).1
        (make_paths "a.x3f".toList none (extension cDng.file_type)).2.2 = true ↔
      (reachesDispatch cDng "a.x3f".toList none orcOk ∧ orcOk.encodeOk = true ∧
        orcOk.renameOk = true)) ∧
    (reachesDispatch cDng "a.x3f".toList none orcOk →
      ∃ pre post, (processFile cDng "a.x3f".toList none orcOk).1 =
        pre ++
          [Event.unlinkEv (make_paths "a.x3f".toList none (extension cDng.file_type)).2.1,
           Event.sgainEv (resolve_sgain cDng.apply_sgain orcOk.headerVersion),
           Event.encodeEv cDng.file_type
             (make_paths "a.x3f".toList none (extension cDng.file_type)).2.1
             (resolve_sgain cDng.apply_sgain orcOk.headerVersion)
             orcOk.encodeOk orcOk.encodeResidue] ++ post) ∧
    (reachesDispatch cDng "a.x3f".toList none orcOk → orcOk.encodeOk = false →
      (processFile cDng "a.x3f".toList none orcOk).2 = 1 ∧
      applyEvents (fun _ => false) (processFile cDng "a.x3f".toList none orcOk).1
        (make_paths "a.x3f".toList none (extension cDng.file_type)).2.1 =
        orcOk.encodeResidue) ∧
    (reachesDispatch cDng "a.x3f".toList none orcOk → orcOk.encodeOk = true →
      orcOk.renameOk = false →
      (processFile cDng "a.x3f".toList none orcOk).2 = 1) :=
  C1_commit_protocol cDng "a.x3f".toList none orcOk (fun _ => false) rfl

/-! ## Claim C6 -/

/-- C6 counterexample: with zero input files the program exits 1 with error
count 0, but the whole of its output is the usage text plus the mislabelled
`Could not find outdir` message — the `No files given` report (and the
errors summary) of lines 485–490 is never emitted, because `main` returns
at line 306 before reaching it. -/
theorem C6_no_input_counterexample :
    (runProgram {} orcOk true).exit = 1 ∧
    (runProgram {} orcOk true).errors = 0 ∧
    (runProgram {} orcOk true).trace = [Event.usageEv, Event.outdirErrEv] ∧
    Event.noFilesEv ∉ (runProgram {} orcOk true).trace := by
  decide

/-- C6 as amended: the exit status is 0 exactly when the option tokens
resolved, an input file was supplied and it was processed with no error
(status is always 0 or 1); with zero input files the program exits 1 with
error count 0, but it reports this with the usage text and the mislabelled
outdir message — the `No files given` report is not emitted on that path. -/
theorem C6_exit_status (opts : Options) (orc : Oracle) (dirOk : Bool) :
    ((runProgram opts orc dirOk).exit = 0 ↔
      (resolveConfig opts ≠ none ∧ opts.input ≠ none ∧
        (runProgram opts orc dirOk).errors = 0)) ∧
    ((runProgram opts orc dirOk).exit = 0 ∨ (runProgram opts orc dirOk).exit = 1) ∧
    (opts.input = none → resolveConfig opts ≠ none →
      (runProgram opts orc dirOk).exit = 1 ∧
      (runProgram opts orc dirOk).errors = 0 ∧
      Event.noFilesEv ∉ (runProgram opts orc dirOk).trace ∧
      Event.usageEv ∈ (runProgram opts orc dirOk).trace ∧
      Event.outdirErrEv ∈ (runProgram opts orc dirOk).trace) := by
  by_cases hres : resolveConfig opts = none
  · refine ⟨by simp [runProgram, hres], by simp [runProgram, hres],
      fun _ hc => absurd hres hc⟩
  · obtain ⟨c, hres⟩ : ∃ c, resolveConfig opts = some c := by
      rcases h : resolveConfig opts with _ | c
      · exact absurd h hres
      · exact ⟨c, rfl⟩
    by_cases hin : opts.input = none
    · refine ⟨by simp [runProgram, hres, hin], by simp [runProgram, hres, hin], ?_⟩
      intro _ _
      refine ⟨by simp [runProgram, hres, hin], by simp [runProgram, hres, hin],
        ?_, ?_, ?_⟩ <;>
        (simp only [runProgram, hres, hin]
         rcases houtd : opts.output with _ | d <;> by_cases hh : opts.help <;>
           by_cases hd : dirOk <;> simp [hh, hd])
    · obtain ⟨infile, hin⟩ : ∃ i, opts.input = some i := by
        rcases h : opts.input with _ | i
        · exact absurd h hin
        · exact ⟨i, rfl⟩
      refine ⟨?_, ?_, fun hc => by rw [hc] at hin; cases hin⟩
      · simp only [runProgram, hres, hin]
        by_cases hp : (processFile c infile opts.output orc).2 = 0 <;>
          simp [hp, hres, hin]
      · simp only [runProgram, hres, hin]
        by_cases hp : (processFile c infile opts.output orc).2 = 0 <;> simp [hp]

/-- Witness for C6 at a run over one input with an all-success oracle. -/
theorem C6_exit_status_witness :
    ((runProgram { input := some "a.x3f".toList } orcOk true).exit = 0 ↔
      (resolveConfig { input := some "a.x3f".toList } ≠ none ∧
        ({ input := some "a.x3f".toList } : Options).input ≠ none ∧
        (runProgram { input := some "a.x3f".toList } orcOk true).errors = 0)) ∧
    ((runProgram { input := some "a.x3f".toList } orcOk true).exit = 0 ∨
      (runProgram { input := some "a.x3f".toList } orcOk true).exit = 1) ∧
    (({ input := some "a.x3f".toList } : Options).input = none →
      resolveConfig { input := some "a.x3f".toList } ≠ none →
      (runProgram { input := some "a.x3f".toList } orcOk true).exit = 1 ∧
      (runProgram { input := some "a.x3f".toList } orcOk true).errors = 0 ∧
      Event.noFilesEv ∉ (runProgram { input := some "a.x3f".toList } orcOk true).trace ∧
      Event.usageEv ∈ (runProgram { input := some "a.x3f".toList } orcOk true).trace ∧
      Event.outdirErrEv ∈ (runProgram { input := some "a.x3f".toList } orcOk true).trace) :=
  C6_exit_status { input := some "a.x3f".toList } orcOk true

/-! ## Claim C7 -/

/-- No known format token requests both the decoded-raw and the
undecoded-raw section. -/
theorem parseFormat_not_both (f : String) (t : Bool × Bool × Bool × OutputFileType × Bool)
    (h : parseFormat f = some t) : ¬(t.2.1 = true ∧ t.2.2.1 = true) := by
  simp only [parseFormat] at h
  split_ifs at h <;> first | (cases h; decide) | cases h

/-- On success the orchestrator's trace is the four blocks in the fixed
order: preview, metadata, decoded raw, undecoded raw. -/
theorem loadPhase_success_trace (jpg meta raw uraw : Bool) (orc : Oracle)
    (h : (loadPhase jpg meta raw uraw orc).2 = true) :
    (loadPhase jpg meta raw uraw orc).1 =
      (jpgStep jpg orc).1 ++ (metaStep meta orc).1 ++
      (rawStep raw orc).1 ++ (urawStep uraw orc).1 := by
  simp only [loadPhase] at h ⊢
  split_ifs at h ⊢ <;> simp_all [List.append_assoc]

/-- When the plan does not request both raw kinds, no load call is ever
repeated. -/
theorem loadPhase_nodup (jpg meta raw uraw : Bool) (orc : Oracle)
    (h : ¬(raw = true ∧ uraw = true)) :
    (loadPhase jpg meta raw uraw orc).1.Nodup := by
  cases jpg <;> cases meta <;> cases raw <;> cases uraw <;>
    simp_all [loadPhase, jpgStep, metaStep, rawStep, urawStep] <;>
    split_ifs <;> simp_all <;> decide

/-- C7: for every resolved plan the orchestrator loads sections in the
fixed order preview, metadata (where a missing property block is non-fatal
but a failed calibration load is an error), then exactly one of
raw-decoded/raw-undecoded (never both); the first failed load ends the load
phase at that point — no later load is attempted, no load is retried — and
aborts the file's pipeline with one counted error and no further stage. -/
theorem C7_load_orchestrator (oo : Options) (c : Config) (orc : Oracle)
    (infile : List Char) (outdir : Option (List Char))
    (h : resolveConfig oo = some c)
    (h1 : orc.openOk = true) (h2 : orc.readOk = true) :
    (¬(c.extract_raw = true ∧ c.extract_unconverted_raw = true)) ∧
    ((loadPhaseOf c orc).2 = true →
      (loadPhaseOf c orc).1 =
        (jpgStep c.extract_jpg orc).1 ++ (metaStep (extract_meta_of c) orc).1 ++
        (rawStep c.extract_raw orc).1 ++ (urawStep c.extract_unconverted_raw orc).1) ∧
    (extract_meta_of c = true → orc.camfOk = false →
      metaStep (extract_meta_of c) orc = ([Event.getPropEv, Event.loadCamfEv], false)) ∧
    (extract_meta_of c = true → orc.camfOk = true → orc.propPresent = false →
      metaStep (extract_meta_of c) orc = ([Event.getPropEv, Event.loadCamfEv], true)) ∧
    ((jpgStep c.extract_jpg orc).2 = false →
      loadPhaseOf c orc = ((jpgStep c.extract_jpg orc).1, false)) ∧
    ((jpgStep c.extract_jpg orc).2 = true →
      (metaStep (extract_meta_of c) orc).2 = false →
      loadPhaseOf c orc =
        ((jpgStep c.extract_jpg orc).1 ++ (metaStep (extract_meta_of c) orc).1, false)) ∧
    ((jpgStep c.extract_jpg orc).2 = true →
      (metaStep (extract_meta_of c) orc).2 = true →
      (rawStep c.extract_raw orc).2 = false →
      loadPhaseOf c orc =
        ((jpgStep c.extract_jpg orc).1 ++ (metaStep (extract_meta_of c) orc).1 ++
         (rawStep c.extract_raw orc).1, false)) ∧
    ((loadPhaseOf c orc).2 = false →
      processFile c infile outdir orc =
        ([Event.fopenEv, Event.readEv] ++ (loadPhaseOf c orc).1 ++
          [Event.errMsgEv] ++ cleanupEvents true, 1)) ∧
    (loadPhaseOf c orc).1.Nodup := by
  have hnb : ¬(c.extract_raw = true ∧ c.extract_unconverted_raw = true) := by
    rcases hf : fmtResult oo with _ | t
    · simp [resolveConfig, hf] at h
    · obtain ⟨ej, er, eur, ft, lh⟩ := t
      obtain ⟨hj, hr_, hu, hft, hlh⟩ := resolveConfig_fmt_fields oo c ej er eur ft lh h hf
      rcases hfo : oo.format with _ | f
      · simp only [fmtResult, hfo, Option.some.injEq, Prod.mk.injEq] at hf
        obtain ⟨hf1, hf2, hf3, hf4, hf5⟩ := hf
        rw [hr_, hu, ← hf2, ← hf3]
        simp
      · simp only [fmtResult, hfo] at hf
        have hpf := parseFormat_not_both f (ej, er, eur, ft, lh) hf
        rw [hr_, hu]
        exact hpf
  refine ⟨hnb, fun hs => loadPhase_success_trace _ _ _ _ orc hs, ?_, ?_, ?_, ?_, ?_, ?_, ?_⟩
  · intro hm hc
    simp [metaStep, hm, hc]
  · intro hm hc hp
    simp [metaStep, hm, hc, hp]
  · intro h5
    simp [loadPhaseOf, loadPhase, h5]
  · intro h5 h6
    simp [loadPhaseOf, loadPhase, h5, h6]
  · intro h5 h6 h7
    simp [loadPhaseOf, loadPhase, h5, h6, h7]
  · intro hlf
    exact processFile_load_fail c infile outdir orc h1 h2 hlf
  · exact loadPhase_nodup _ _ _ _ orc hnb

/-- Witness for C7 at the default configuration and an all-success
oracle. -/
theorem C7_load_orchestrator_witness :
    (¬(cDng.extract_raw = true ∧ cDng.extract_unconverted_raw = true)) ∧
    ((loadPhaseOf cDng orcOk).2 = true →
      (loadPhaseOf cDng orcOk).1 =
        (jpgStep cDng.extract_jpg orcOk).1 ++ (metaStep (extract_meta_of cDng) orcOk).1 ++
        (rawStep cDng.extract_raw orcOk).1 ++
        (urawStep cDng.extract_unconverted_raw orcOk).1) ∧
    (extract_meta_of cDng = true → orcOk.camfOk = false →
      metaStep (extract_meta_of cDng) orcOk =
        ([Event.getPropEv, Event.loadCamfEv], false)) ∧
    (extract_meta_of cDng = true → orcOk.camfOk = true → orcOk.propPresent = false →
      metaStep (extract_meta_of cDng) orcOk =
        ([Event.getPropEv, Event.loadCamfEv], true)) ∧
    ((jpgStep cDng.extract_jpg orcOk).2 = false →
      loadPhaseOf cDng orcOk = ((jpgStep cDng.extract_jpg orcOk).1, false)) ∧
    ((jpgStep cDng.extract_jpg orcOk).2 = true →
      (metaStep (extract_meta_of cDng) orcOk).2 = false →
      loadPhaseOf cDng orcOk =
        ((jpgStep cDng.extract_jpg orcOk).1 ++
         (metaStep (extract_meta_of cDng) orcOk).1, false)) ∧
    ((jpgStep cDng.extract_jpg orcOk).2 = true →
      (metaStep (extract_meta_of cDng) orcOk).2 = true →
      (rawStep cDng.extract_raw orcOk).2 = false →
      loadPhaseOf cDng orcOk =
        ((jpgStep cDng.extract_jpg orcOk).1 ++
         (metaStep (extract_meta_of cDng) orcOk).1 ++
         (rawStep cDng.extract_raw orcOk).1, false)) ∧
    ((loadPhaseOf cDng orcOk).2 = false →
      processFile cDng "a.x3f".toList none orcOk =
        ([Event.fopenEv, Event.readEv] ++ (loadPhaseOf cDng orcOk).1 ++
          [Event.errMsgEv] ++ cleanupEvents true, 1)) ∧
    (loadPhaseOf cDng orcOk).1.Nodup :=
  C7_load_orchestrator {} cDng orcOk "a.x3f".toList none resolveConfig_default rfl rfl

/-! ## Claim C8 -/

/-- Classification of commit-step events: never a load, an open, a read, a
path computation or a cleanup event. -/
theorem commitStep_classify (ft : OutputFileType) (tmpf outf : List Char) (sg : Bool)
    (o : Oracle) :
    ∀ e ∈ (commitStep ft tmpf outf sg o).1,
      isLoadEvent e = false ∧ e ≠ Event.fopenEv ∧ e ≠ Event.readEv ∧
      e ≠ Event.makePathsEv ∧ e ≠ Event.deleteEv ∧ e ≠ Event.closeEv := by
  rcases he : o.encodeOk <;> rcases hr : o.renameOk <;>
    (intro e hme
     simp only [commitStep, he, hr, Bool.not_false, Bool.not_true, if_true,
       Bool.false_eq_true, if_false, List.mem_cons, List.mem_singleton,
       List.not_mem_nil, or_false] at hme) <;>
    (rcases hme with rfl | hme
     · simp [isLoadEvent]
     all_goals first
       | (rcases hme with rfl | rfl <;> simp [isLoadEvent])
       | (rcases hme with rfl <;> simp [isLoadEvent])
       | (subst hme; simp [isLoadEvent]))

/-- C8 counterexample: on a successful default-configuration run the
container is opened and the raw section is loaded strictly before
`make_paths` computes the PathPair — the claim's "paths are built before
any I/O" ordering is violated by the code. -/
theorem C8_counterexample :
    Event.makePathsEv ∈ (processFile cDng "a.x3f".toList none orcOk).1 ∧
    Event.fopenEv ∈ (processFile cDng "a.x3f".toList none orcOk).1 ∧
    Event.loadRawEv ∈ (processFile cDng "a.x3f".toList none orcOk).1 ∧
    List.indexOf Event.fopenEv (processFile cDng "a.x3f".toList none orcOk).1 <
      List.indexOf Event.makePathsEv (processFile cDng "a.x3f".toList none orcOk).1 ∧
    List.indexOf Event.loadRawEv (processFile cDng "a.x3f".toList none orcOk).1 <
      List.indexOf Event.makePathsEv (processFile cDng "a.x3f".toList none orcOk).1 := by
  decide

/-- C8 as amended: the extraction plan is resolved without I/O, but the
PathPair is computed only *after* the container is opened, read and every
planned section load has succeeded — `make_paths` sits immediately before
the unlink/dispatch stage, and no load, open or read event ever follows
it. -/
theorem C8_paths_after_loads (c : Config) (infile : List Char)
    (outdir : Option (List Char)) (o : Oracle)
    (h1 : o.openOk = true) (h2 : o.readOk = true)
    (h3 : (loadPhaseOf c o).2 = true) :
    ∃ rest, (processFile c infile outdir o).1 =
      [Event.fopenEv, Event.readEv] ++ (loadPhaseOf c o).1 ++
        [Event.makePathsEv] ++ rest ∧
      (∀ e ∈ rest, isLoadEvent e = false ∧ e ≠ Event.fopenEv ∧ e ≠ Event.readEv) ∧
      (∀ e ∈ [Event.fopenEv, Event.readEv] ++ (loadPhaseOf c o).1,
        e ≠ Event.makePathsEv) := by
  have hside : ∀ e ∈ [Event.fopenEv, Event.readEv] ++ (loadPhaseOf c o).1,
      e ≠ Event.makePathsEv := by
    intro e he
    simp only [List.mem_append, List.mem_cons, List.mem_singleton,
      List.not_mem_nil, or_false] at he
    rcases he with (rfl | rfl) | he
    · simp
    · simp
    · intro hx
      have := loadPhase_loads c.extract_jpg (extract_meta_of c) c.extract_raw
        c.extract_unconverted_raw o e he
      rw [hx] at this
      simp [isLoadEvent] at this
  by_cases hm : (make_paths infile outdir (extension c.file_type)).1 = 0
  · refine ⟨[Event.unlinkEv (make_paths infile outdir (extension c.file_type)).2.1,
      Event.sgainEv (resolve_sgain c.apply_sgain o.headerVersion)] ++
      (commitStep c.file_type
        (make_paths infile outdir (extension c.file_type)).2.1
        (make_paths infile outdir (extension c.file_type)).2.2
        (resolve_sgain c.apply_sgain o.headerVersion) o).1 ++
      cleanupEvents true, ?_, ?_, hside⟩
    · rw [processFile_dispatch c infile outdir o h1 h2 h3 hm]
      simp
    · intro e he
      simp only [cleanupEvents, if_true, List.append_assoc, List.mem_append,
        List.mem_cons, List.mem_singleton, List.not_mem_nil, or_false] at he
      rcases he with (rfl | rfl) | he | rfl | rfl
      · simp [isLoadEvent]
      · simp [isLoadEvent]
      · obtain ⟨ha, hb, hc, _, _, _⟩ := commitStep_classify c.file_type
          (make_paths infile outdir (extension c.file_type)).2.1
          (make_paths infile outdir (extension c.file_type)).2.2
          (resolve_sgain c.apply_sgain o.headerVersion) o e he
        exact ⟨ha, hb, hc⟩
      · simp [isLoadEvent]
      · simp [isLoadEvent]
  · refine ⟨[Event.errMsgEv] ++ cleanupEvents true, ?_, ?_, hside⟩
    · rw [processFile_path_fail c infile outdir o h1 h2 h3 hm]
      simp
    · intro e he
      simp only [cleanupEvents, if_true, List.append_assoc, List.mem_append,
        List.mem_cons, List.mem_singleton, List.not_mem_nil, or_false] at he
      rcases he with rfl | rfl | rfl <;> simp [isLoadEvent]

/-- Witness for C8's amended ordering at the default configuration and an
all-success oracle. -/
theorem C8_paths_after_loads_witness :
    ∃ rest, (processFile cDng "a.x3f".toList none orcOk).1 =
      [Event.fopenEv, Event.readEv] ++ (loadPhaseOf cDng orcOk).1 ++
        [Event.makePathsEv] ++ rest ∧
      (∀ e ∈ rest, isLoadEvent e = false ∧ e ≠ Event.fopenEv ∧ e ≠ Event.readEv) ∧
      (∀ e ∈ [Event.fopenEv, Event.readEv] ++ (loadPhaseOf cDng orcOk).1,
        e ≠ Event.makePathsEv) :=
  C8_paths_after_loads cDng "a.x3f".toList none orcOk rfl rfl (by decide)

/-! ## Claim C9 -/

/-- C9: on every exit path of a file's processing — success, open failure,
read failure, load failure, path overflow, encode failure or rename
failure — the trace ends with the handle destruction followed by the file
close (the latter exactly when the input was opened), and neither cleanup
event occurs anywhere earlier. -/
theorem C9_handle_released (c : Config) (infile : List Char)
    (outdir : Option (List Char)) (o : Oracle) :
    ∃ pre, (processFile c infile outdir o).1 = pre ++ cleanupEvents o.openOk ∧
      Event.deleteEv ∉ pre ∧ Event.closeEv ∉ pre := by
  have hload : ∀ e ∈ (loadPhaseOf c o).1, e ≠ Event.deleteEv ∧ e ≠ Event.closeEv := by
    intro e he
    have := loadPhase_loads c.extract_jpg (extract_meta_of c) c.extract_raw
      c.extract_unconverted_raw o e he
    constructor <;> (intro hx; rw [hx] at this; simp [isLoadEvent] at this)
  cases ho : o.openOk with
  | false =>
    rw [processFile_open_fail c infile outdir o ho]
    exact ⟨[Event.fopenEv, Event.errMsgEv], rfl, by simp, by simp⟩
  | true =>
    cases hr : o.readOk with
    | false =>
      rw [processFile_read_fail c infile outdir o ho hr]
      exact ⟨[Event.fopenEv, Event.readEv, Event.errMsgEv], rfl, by simp, by simp⟩
    | true =>
      cases hl : (loadPhaseOf c o).2 with
      | false =>
        rw [processFile_load_fail c infile outdir o ho hr hl]
        refine ⟨[Event.fopenEv, Event.readEv] ++ (loadPhaseOf c o).1 ++
          [Event.errMsgEv], by simp, ?_, ?_⟩ <;>
          (intro hmem
           simp only [List.mem_append, List.mem_cons, List.mem_singleton,
             List.not_mem_nil, or_false] at hmem
           rcases hmem with ((h' | h') | hmem) | h' <;>
             first
               | cases h'
               | (rcases hload _ hmem with ⟨ha, hb⟩; first | exact ha rfl | exact hb rfl))
      | true =>
        by_cases hm : (make_paths infile outdir (extension c.file_type)).1 = 0
        · rw [processFile_dispatch c infile outdir o ho hr hl hm]
          refine ⟨[Event.fopenEv, Event.readEv] ++ (loadPhaseOf c o).1 ++
            [Event.makePathsEv,
             Event.unlinkEv (make_paths infile outdir (extension c.file_type)).2.1,
             Event.sgainEv (resolve_sgain c.apply_sgain o.headerVersion)] ++
            (commitStep c.file_type
              (make_paths infile outdir (extension c.file_type)).2.1
              (make_paths infile outdir (extension c.file_type)).2.2
              (resolve_sgain c.apply_sgain o.headerVersion) o).1, by simp, ?_, ?_⟩ <;>
            (intro hmem
             simp only [List.mem_append, List.mem_cons, List.mem_singleton,
               List.not_mem_nil, or_false] at hmem
             rcases hmem with (((h' | h') | hmem) | h' | h' | h') | hmem <;>
               first
                 | cases h'
                 | (rcases hload _ hmem with ⟨ha, hb⟩; first | exact ha rfl | exact hb rfl)
                 | (obtain ⟨_, _, _, _, hd, hc⟩ := commitStep_classify c.file_type
                      (make_paths infile outdir (extension c.file_type)).2.1
                      (make_paths infile outdir (extension c.file_type)).2.2
                      (resolve_sgain c.apply_sgain o.headerVersion) o _ hmem
                    first | exact hd rfl | exact hc rfl))
        · rw [processFile_path_fail c infile outdir o ho hr hl hm]
          refine ⟨[Event.fopenEv, Event.readEv] ++ (loadPhaseOf c o).1 ++
            [Event.makePathsEv, Event.errMsgEv], by simp, ?_, ?_⟩ <;>
            (intro hmem
             simp only [List.mem_append, List.mem_cons, List.mem_singleton,
               List.not_mem_nil, or_false] at hmem
             rcases hmem with ((h' | h') | hmem) | h' | h' <;>
               first
                 | cases h'
                 | (rcases hload _ hmem with ⟨ha, hb⟩; first | exact ha rfl | exact hb rfl))

/-! ## Claim C10 -/

/-- C10: an output-directory option naming a missing or non-directory path
(`check_dir` fails) only adds one usage-text print to the run: exit status,
error count and file count are unchanged relative to the same run with a
valid directory, and the directory string is still used to process the
file — the processing segment and its summary are identical, built over
`some d`. -/
theorem C10_invalid_outdir (opts : Options) (orc : Oracle) (d : List Char)
    (hout : opts.output = some d) :
    (runProgram opts orc false).exit = (runProgram opts orc true).exit ∧
    (runProgram opts orc false).errors = (runProgram opts orc true).errors ∧
    (runProgram opts orc false).files = (runProgram opts orc true).files ∧
    (resolveConfig opts ≠ none →
      ∃ p q, (runProgram opts orc true).trace = p ++ q ∧
        (runProgram opts orc false).trace = p ++ Event.usageEv :: q) ∧
    (∀ c infile, resolveConfig opts = some c → opts.input = some infile →
      (runProgram opts orc false).trace =
        (if opts.help then [Event.usageEv] else []) ++ [Event.usageEv] ++
        (processFile c infile (some d) orc).1 ++
        [Event.summaryEv 1 (processFile c infile (some d) orc).2]) := by
  by_cases hres : resolveConfig opts = none
  · refine ⟨by simp [runProgram, hres], by simp [runProgram, hres],
      by simp [runProgram, hres], fun hc => absurd hres hc, ?_⟩
    intro c infile hc _
    rw [hres] at hc
    cases hc
  · obtain ⟨c, hres⟩ : ∃ c, resolveConfig opts = some c := by
      rcases h : resolveConfig opts with _ | c
      · exact absurd h hres
      · exact ⟨c, rfl⟩
    cases hin : opts.input with
    | none =>
      refine ⟨by simp [runProgram, hres, hin, hout],
        by simp [runProgram, hres, hin, hout],
        by simp [runProgram, hres, hin, hout], ?_, ?_⟩
      · intro _
        refine ⟨(if opts.help then [Event.usageEv] else []),
          [Event.usageEv, Event.outdirErrEv], ?_, ?_⟩ <;>
          simp [runProgram, hres, hin, hout]
      · intro c' infile _ hc
        cases hc
    | some infile =>
      refine ⟨by simp [runProgram, hres, hin, hout],
        by simp [runProgram, hres, hin, hout],
        by simp [runProgram, hres, hin, hout], ?_, ?_⟩
      · intro _
        refine ⟨(if opts.help then [Event.usageEv] else []),
          (processFile c infile opts.output orc).1 ++
            [Event.summaryEv 1 (processFile c infile opts.output orc).2], ?_, ?_⟩ <;>
          simp [runProgram, hres, hin, hout]
      · intro c' infile' hc hinf
        rw [hres] at hc
        injection hc with hc
        injection hinf with hinf
        subst hc
        subst hinf
        simp [runProgram, hres, hin, hout]

/-- Witness for C10 with output directory `/out` and one input file. -/
theorem C10_invalid_outdir_witness :
    (runProgram { output := some "/out".toList, input := some "a.x3f".toList }
        orcOk false).exit =
      (runProgram { output := some "/out".toList, input := some "a.x3f".toList }
        orcOk true).exit ∧
    (runProgram { output := some "/out".toList, input := some "a.x3f".toList }
        orcOk false).errors =
      (runProgram { output := some "/out".toList, input := some "a.x3f".toList }
        orcOk true).errors ∧
    (runProgram { output := some "/out".toList, input := some "a.x3f".toList }
        orcOk false).files =
      (runProgram { output := some "/out".toList, input := some "a.x3f".toList }
        orcOk true).files ∧
    (resolveConfig { output := some "/out".toList, input := some "a.x3f".toList } ≠ none →
      ∃ p q, (runProgram { output := some "/out".toList, input := some "a.x3f".toList }
          orcOk true).trace = p ++ q ∧
        (runProgram { output := some "/out".toList, input := some "a.x3f".toList }
          orcOk false).trace = p ++ Event.usageEv :: q) ∧
    (∀ c infile,
      resolveConfig { output := some "/out".toList, input := some "a.x3f".toList } = some c →
      ({ output := some "/out".toList, input := some "a.x3f".toList } : Options).input =
        some infile →
      (runProgram { output := some "/out".toList, input := some "a.x3f".toList }
          orcOk false).trace =
        (if ({ output := some "/out".toList, input := some "a.x3f".toList } : Options).help
         then [Event.usageEv] else []) ++ [Event.usageEv] ++
        (processFile c infile (some "/out".toList) orcOk).1 ++
        [Event.summaryEv 1 (processFile c infile (some "/out".toList) orcOk).2]) :=
  C10_invalid_outdir { output := some "/out".toList, input := some "a.x3f".toList }
    orcOk "/out".toList rfl

end X3fExtract
